import Mathlib

/-!
Verification of the oarkflow/ws real-time messaging hub.

The Go source is shallowly embedded: JSON values become an inductive
`Json` type (objects are modelled as key-ordered association lists, since
Go's `encoding/json` marshals maps with sorted keys and map iteration
order is not observable through the claims below), Go `interface` values
holding raw byte slices get the dedicated `Json.bytes` constructor, the
`Hub`/`Socket` registry becomes explicit record state, goroutine channel
enqueues become `Delivery` events, and the nanosecond-clock ID generators
(`generateSocketID`, `generateMessageID`) become a monotone counter, which
is faithful to their role as a strictly increasing uniqueness source.
A Go `panic` (from a failed unchecked type assertion) is modelled with
`Except String`.
-/

namespace Ws

/-- JSON values as produced by Go's `json.Unmarshal` into `interface` and
consumed by `json.Marshal`.  `null` doubles as the Go nil interface (Go
decodes JSON `null` to a nil interface value).  `bytes` stands for a Go
`[]byte` value stored in an `interface` field (it never results from
unmarshalling). -/
inductive Json where
  | null : Json
  | bool (b : Bool) : Json
  | num (n : Int) : Json
  | str (s : String) : Json
  | arr (elems : List Json) : Json
  | obj (fields : List (String × Json)) : Json
  | bytes (bs : List Nat) : Json

/-- Lookup in a JSON object's field list, modelling Go's `obj[key]`
comma-ok map access (`none` when the key is absent). -/
def alookup : List (String × Json) → String → Option Json
  | [], _ => none
  | (k, v) :: rest, key => if k = key then some v else alookup rest key

/-- Go's comma-ok string type assertion `v.(string)`: succeeds only when
the key is present and holds a string. -/
def asString : Option Json → Option String
  | some (.str s) => some s
  | _ => none

/-- Go's comma-ok `v.(float64)` assertion on an unmarshalled JSON number. -/
def asNum : Option Json → Option Int
  | some (.num n) => some n
  | _ => none

/-- Nil test for the Go interface payload (the `omitempty` check and the
`msg.Data == nil` guard). -/
def Json.isNull : Json → Bool
  | .null => true
  | _ => false

/-- Upsert into a JSON object's field list, modelling Go's map assignment
`m[k] = v` (replaces an existing key, otherwise appends). -/
def objUpsert : List (String × Json) → String → Json → List (String × Json)
  | [], key, v => [(key, v)]
  | (k, w) :: rest, key, v =>
    if k = key then (key, v) :: rest else (k, w) :: objUpsert rest key v

/-! Message type constants from `messages.go`. -/

def MsgBroadcast : Int := 1
def MsgPrivate : Int := 2
def MsgSystem : Int := 3
def MsgSubscribe : Int := 4
def MsgUnsubscribe : Int := 5
def MsgPing : Int := 6
def MsgPong : Int := 7
def MsgError : Int := 8
def MsgAck : Int := 9
def MsgFile : Int := 10
def MsgTyping : Int := 11
def MsgDirect : Int := 12
def MsgThread : Int := 13
def MsgUserList : Int := 14
def MsgSetAlias : Int := 15
def MsgAuth : Int := 16
def MsgJoin : Int := 17
def MsgOffer : Int := 18
def MsgAnswer : Int := 19
def MsgIceCandidate : Int := 20
def MsgMute : Int := 21
def MsgUnmute : Int := 22
def MsgHold : Int := 23
def MsgDTMF : Int := 24
def MsgJoined : Int := 25
def MsgPeerJoined : Int := 26
def MsgPeerLeft : Int := 27
def MsgCallStateChanged : Int := 28
def MsgRecordingStarted : Int := 29
def MsgRecordingFinished : Int := 30

/-- The unified wire message (`Message` struct in `messages.go`).  Field
order matches the Go struct; `fromAlias` is the Go field `From`
(json key "from"; `from` is a Lean keyword).  `data` is the Go
`interface` payload with `Json.null` standing for Go nil. -/
structure Message where
  t : Int := 0
  topic : String := ""
  toId : String := ""
  data : Json := .null
  code : Int := 0
  id : String := ""
  threadId : String := ""
  replyTo : String := ""
  fromAlias : String := ""

/-- `stringToMsgType` from `messages.go`: legacy event names to numeric
tags.  Note the source has no cases for "subscribe", "unsubscribe" or
"ack"; those fall to the default (system). -/
def stringToMsgType (event : String) : Int :=
  match event with
  | "broadcast" => MsgBroadcast
  | "private" => MsgPrivate
  | "system" => MsgSystem
  | "subscribed" => MsgAck
  | "unsubscribed" => MsgAck
  | "ping" => MsgPing
  | "pong" => MsgPong
  | "error" => MsgError
  | "file" => MsgFile
  | "typing" => MsgTyping
  | "direct" => MsgDirect
  | "thread" => MsgThread
  | "user_list" => MsgUserList
  | "set_alias" => MsgSetAlias
  | "auth" => MsgAuth
  | "join" => MsgJoin
  | "offer" => MsgOffer
  | "answer" => MsgAnswer
  | "ice-candidate" => MsgIceCandidate
  | "mute" => MsgMute
  | "unmute" => MsgUnmute
  | "hold" => MsgHold
  | "dtmf" => MsgDTMF
  | "joined" => MsgJoined
  | "peer-joined" => MsgPeerJoined
  | "peer-left" => MsgPeerLeft
  | "call-state-changed" => MsgCallStateChanged
  | "recording-started" => MsgRecordingStarted
  | "recording-finished" => MsgRecordingFinished
  | _ => MsgSystem

/-- `msgTypeToString` from `messages.go`. -/
def msgTypeToString (msgType : Int) : String :=
  if msgType = MsgBroadcast then "broadcast"
  else if msgType = MsgPrivate then "private"
  else if msgType = MsgSystem then "system"
  else if msgType = MsgSubscribe then "subscribe"
  else if msgType = MsgUnsubscribe then "unsubscribe"
  else if msgType = MsgPing then "ping"
  else if msgType = MsgPong then "pong"
  else if msgType = MsgError then "error"
  else if msgType = MsgAck then "ack"
  else if msgType = MsgFile then "file"
  else if msgType = MsgTyping then "typing"
  else if msgType = MsgDirect then "direct"
  else if msgType = MsgThread then "thread"
  else if msgType = MsgUserList then "user_list"
  else if msgType = MsgSetAlias then "set_alias"
  else if msgType = MsgAuth then "auth"
  else if msgType = MsgJoin then "join"
  else if msgType = MsgOffer then "offer"
  else if msgType = MsgAnswer then "answer"
  else if msgType = MsgIceCandidate then "ice-candidate"
  else if msgType = MsgMute then "mute"
  else if msgType = MsgUnmute then "unmute"
  else if msgType = MsgHold then "hold"
  else if msgType = MsgDTMF then "dtmf"
  else if msgType = MsgJoined then "joined"
  else if msgType = MsgPeerJoined then "peer-joined"
  else if msgType = MsgPeerLeft then "peer-left"
  else if msgType = MsgCallStateChanged then "call-state-changed"
  else if msgType = MsgRecordingStarted then "recording-started"
  else if msgType = MsgRecordingFinished then "recording-finished"
  else "unknown"

/-- `json.Marshal` of a `Message`: emits the canonical object form, keys
in Go struct-field order, omitting fields at their zero value
(`omitempty`; `t` has no omitempty tag and is always emitted). -/
def encodeMessage (m : Message) : Json :=
  .obj ([("t", Json.num m.t)]
    ++ (if m.topic = "" then [] else [("topic", Json.str m.topic)])
    ++ (if m.toId = "" then [] else [("to", Json.str m.toId)])
    ++ (if m.data.isNull then [] else [("data", m.data)])
    ++ (if m.code = 0 then [] else [("code", Json.num m.code)])
    ++ (if m.id = "" then [] else [("id", Json.str m.id)])
    ++ (if m.threadId = "" then [] else [("threadId", Json.str m.threadId)])
    ++ (if m.replyTo = "" then [] else [("replyTo", Json.str m.replyTo)])
    ++ (if m.fromAlias = "" then [] else [("from", Json.str m.fromAlias)]))

/-- Go map assignment into a `Message.Data` slot after a
`if msg.Data == nil` guard: nil becomes a fresh one-entry map, an
existing map is upserted, any other value is left unchanged (the Go
comma-ok map assertion fails and the assignment is skipped). -/
def goSetMapField (d : Json) (k : String) (v : Json) : Json :=
  match d with
  | .null => .obj [(k, v)]
  | .obj fs => .obj (objUpsert fs k v)
  | other => other

/-- The positional-array inbound form from `handleMessage`
(server.go): `[t, topic?, data?, id?, to?, code?]`; positions of the
wrong type are ignored, leaving the zero value. -/
def decodeArrayForm (arrElems : List Json) : Message :=
  let m : Message := {}
  let m := match arrElems.get? 0 with
    | some (.num n) => { m with t := n }
    | _ => m
  let m := match arrElems.get? 1 with
    | some (.str topic) => { m with topic := topic }
    | _ => m
  let m := match arrElems.get? 2 with
    | some d => { m with data := d }
    | none => m
  let m := match arrElems.get? 3 with
    | some (.str i) => { m with id := i }
    | _ => m
  let m := match arrElems.get? 4 with
    | some (.str toV) => { m with toId := toV }
    | _ => m
  let m := match arrElems.get? 5 with
    | some (.num code) => { m with code := code }
    | _ => m
  m

/-- The unified object inbound form from `handleMessage` (requires the
"t" key; a non-numeric "t" leaves `t = 0`).  Mirrors the source field by
field, including the top-level "filename"/"size" merge into `data` and
the fact that `threadId`, `replyTo` and `from` are never read. -/
def decodeObjectForm (fields : List (String × Json)) : Option Message :=
  match alookup fields "t" with
  | none => none
  | some tVal =>
    let m : Message := {}
    let m := match tVal with
      | .num n => { m with t := n }
      | _ => m
    let m := match asString (alookup fields "topic") with
      | some topic => { m with topic := topic }
      | none => m
    let m := match alookup fields "data" with
      | some d => { m with data := d }
      | none => m
    let m := match asString (alookup fields "id") with
      | some i => { m with id := i }
      | none => m
    let m := match asString (alookup fields "to") with
      | some toV => { m with toId := toV }
      | none => m
    let m := match asNum (alookup fields "code") with
      | some code => { m with code := code }
      | none => m
    let m := match asString (alookup fields "filename") with
      | some filename => { m with data := goSetMapField m.data "filename" (.str filename) }
      | none => m
    let m := match asNum (alookup fields "size") with
      | some size => { m with data := goSetMapField m.data "size" (.num size) }
      | none => m
    some m

/-- The legacy keyword inbound form (object with a string "event" key):
reads only `topic`, `data` and `id` besides the mapped event name. -/
def decodeLegacyForm (fields : List (String × Json)) : Option Message :=
  match asString (alookup fields "event") with
  | none => none
  | some event =>
    let m : Message := { t := stringToMsgType event }
    let m := match asString (alookup fields "topic") with
      | some topic => { m with topic := topic }
      | none => m
    let m := match alookup fields "data" with
      | some d => { m with data := d }
      | none => m
    let m := match asString (alookup fields "id") with
      | some i => { m with id := i }
      | none => m
    some m

/-- JSON routing of `handleMessage`: arrays take the positional form,
objects take the unified form when "t" is present, else the legacy form
when "event" is present; anything else falls through to the plain-text
protocol (`none` here). -/
def decodeMessage (j : Json) : Option Message :=
  match j with
  | .arr elems => some (decodeArrayForm elems)
  | .obj fields =>
    (match decodeObjectForm fields with
     | some m => some m
     | none => decodeLegacyForm fields)
  | _ => none

/-! # Hub, sockets, storage -/

/-- One enqueued outbound item: `target` is the socket ID whose
connection queue receives the payload.  `text` is a `writeAsync` of a
marshalled message, `binary` a `writeBinaryAsync`, `pong` a direct
`writeMessage(PongMessage, payload)`. -/
inductive Payload where
  | text (j : Json) : Payload
  | binary (bs : List Nat) : Payload
  | pong (bs : List Nat) : Payload

structure Delivery where
  target : String
  payload : Payload

/-- The mutable per-socket state (`Socket` struct): ID, alias, banned
flag, property bag, the single-slot pending file metadata, and the
owning connection's topic-subscription set (a `map[string]bool` on the
Go `Connection`, kept here as a list of member topics). -/
structure SocketSt where
  id : String
  aliasName : String := ""
  banned : Bool := false
  props : List (String × Json) := []
  pendingFile : Option Message := none
  subscriptions : List String := []

/-- The monotone generator standing for the process clock: Go's
`generateSocketID`/`generateMessageID` both format
`time.Now().UnixNano()`, a strictly increasing uniqueness source, and
`time.Now().Unix()` supplies timestamps.  `counter` models the
nanosecond clock (each read increments it), `now` the coarse
second-resolution clock. -/
structure Gen where
  counter : Nat := 0
  now : Int := 0

/-- `generateMessageID`: "msg_" + the current nanosecond reading. -/
def generateMessageID (g : Gen) : String × Gen :=
  ("msg_" ++ toString g.counter, { g with counter := g.counter + 1 })

/-- Decimal rendering of a natural number (`fmt.Sprintf` with the
decimal verb), written over `Nat.digits` so its injectivity is
provable. -/
def natDecimal (n : Nat) : String :=
  if n = 0 then "0"
  else String.mk ((Nat.digits 10 n).reverse.map (fun d => Char.ofNat (48 + d)))

/-- Inverse decimal reading, used only to prove `natDecimal`
injective. -/
def decodeDecimal (s : String) : Nat :=
  Nat.ofDigits 10 ((s.data.map (fun c => c.toNat - 48)).reverse)

/-- `generateSocketID`: the decimal nanosecond reading itself. -/
def generateSocketID (g : Gen) : String × Gen :=
  (natDecimal g.counter, { g with counter := g.counter + 1 })

/-- `StoredMessage` from storage.go. -/
structure StoredMessage where
  id : String
  recipient : String
  message : Message
  timestamp : Int

/-- `InMemoryMessageStorage`: recipient ID → stored messages, plus the
TTL.  The Go map is an association list here. -/
structure InMemoryMessageStorage where
  messages : List (String × List StoredMessage) := []
  maxAge : Int := 24 * 3600

/-- Association-list lookup for the storage map (comma-ok access). -/
def storeLookup : List (String × List StoredMessage) → String → Option (List StoredMessage)
  | [], _ => none
  | (k, v) :: rest, key => if k = key then some v else storeLookup rest key

/-- Map upsert for the storage map. -/
def storeUpsert : List (String × List StoredMessage) → String → List StoredMessage → List (String × List StoredMessage)
  | [], key, v => [(key, v)]
  | (k, w) :: rest, key, v =>
    if k = key then (key, v) :: rest else (k, w) :: storeUpsert rest key v

/-- Map key deletion for the storage map. -/
def storeErase : List (String × List StoredMessage) → String → List (String × List StoredMessage)
  | [], _ => []
  | (k, w) :: rest, key =>
    if k = key then rest else (k, w) :: storeErase rest key

/-- `InMemoryMessageStorage.StoreMessage`: wraps the message in a
`StoredMessage` with a freshly generated synthetic ID and appends it
under the recipient. -/
def StoreMessage (s : InMemoryMessageStorage) (recipientID : String) (message : Message)
    (g : Gen) : InMemoryMessageStorage × Gen :=
  let (mid, g) := generateMessageID g
  let storedMsg : StoredMessage :=
    { id := mid, recipient := recipientID, message := message, timestamp := g.now }
  let existing := (storeLookup s.messages recipientID).getD []
  ({ s with messages := storeUpsert s.messages recipientID (existing ++ [storedMsg]) }, g)

/-- `InMemoryMessageStorage.GetMessages`: the inner `Message`s stored
under the recipient, in insertion order. -/
def GetMessages (s : InMemoryMessageStorage) (recipientID : String) : List Message :=
  ((storeLookup s.messages recipientID).getD []).map (·.message)

/-- `InMemoryMessageStorage.DeleteMessages`: keeps the stored messages
whose *synthetic* `StoredMessage.ID` is not among `messageIDs`,
dropping the map key when nothing is left. -/
def DeleteMessages (s : InMemoryMessageStorage) (recipientID : String)
    (messageIDs : List String) : InMemoryMessageStorage :=
  match storeLookup s.messages recipientID with
  | none => s
  | some storedMsgs =>
    let filtered := storedMsgs.filter (fun m => !(messageIDs.contains m.id))
    if filtered.isEmpty then
      { s with messages := storeErase s.messages recipientID }
    else
      { s with messages := storeUpsert s.messages recipientID filtered }

/-- The Hub registry.  Go keys the `sockets` map by socket ID; here the
registry is the list of socket states (IDs unique, `connCount` tracked
separately exactly as in the source). -/
structure Hub where
  sockets : List SocketSt := []
  connCount : Int := 0
  maxConns : Int := 100000
  storage : InMemoryMessageStorage := {}

/-- `NewHub` with the in-memory storage default. -/
def NewHub : Hub := {}

/-- `Hub.GetSocket`. -/
def Hub.GetSocket (h : Hub) (socketID : String) : Option SocketSt :=
  h.sockets.find? (fun s => s.id = socketID)

/-- Replace the state of the socket with the given ID (a Go method call
mutating the pointed-to `Socket`). -/
def Hub.updateSocket (h : Hub) (socketID : String) (f : SocketSt → SocketSt) : Hub :=
  { h with sockets := h.sockets.map (fun s => if s.id = socketID then f s else s) }

/-- `Socket.GetAlias`: the first twelve characters of the ID when no
alias is set (socket IDs are 19-digit nanosecond strings in Go, so the
slice never goes out of range). -/
def SocketSt.GetAlias (s : SocketSt) : String :=
  if s.aliasName = "" then s.id.take 12 else s.aliasName

/-- `Socket.SendMessage`: a no-op for a banned socket, otherwise one
text enqueue of the marshalled message on the socket's own queue. -/
def SocketSt.SendMessage (s : SocketSt) (msg : Message) : List Delivery :=
  if s.banned then [] else [⟨s.id, .text (encodeMessage msg)⟩]

/-- `Socket.Send`: unified send with a string event name; note the
source sets the message ID to the *socket's* ID. -/
def SocketSt.Send (s : SocketSt) (event : String) (data : Json) : List Delivery :=
  if s.banned then []
  else [⟨s.id, .text (encodeMessage { t := stringToMsgType event, data := data, id := s.id })⟩]

/-- Modelled from the spec: `Connection.IsSubscribed` lives in the ws
package's connection file, which is not among the provided sources; §3
fixes its meaning — membership of topic T in the connection's
subscription set. -/
def SocketSt.IsSubscribed (s : SocketSt) (topic : String) : Bool :=
  s.subscriptions.contains topic

/-- Modelled from the spec: `Connection.Subscribe` adds the topic to the
connection's subscription set (Go `map[string]bool` assignment, hence
idempotent). -/
def SocketSt.Subscribe (s : SocketSt) (topic : String) : SocketSt :=
  if s.subscriptions.contains topic then s
  else { s with subscriptions := s.subscriptions ++ [topic] }

/-- Modelled from the spec: `Connection.Unsubscribe` removes the topic
from the connection's subscription set. -/
def SocketSt.Unsubscribe (s : SocketSt) (topic : String) : SocketSt :=
  { s with subscriptions := s.subscriptions.filter (fun t => t ≠ topic) }

/-- `Hub.BroadcastMessageExcept` (hub.go): marshal once, then for every
non-banned socket: a topic other than "" and "general" restricts
delivery to subscribers (the sender included when subscribed); otherwise
the excluded sender is skipped.  Exclusion is pointer equality in Go,
rendered here as ID equality (IDs are unique registry keys). -/
def Hub.BroadcastMessageExcept (h : Hub) (msg : Message) (excludeId : Option String) : List Delivery :=
  let jsonData := encodeMessage msg
  h.sockets.filterMap (fun socket =>
    if socket.banned then none
    else if msg.topic ≠ "" ∧ msg.topic ≠ "general" then
      (if socket.IsSubscribed msg.topic then some ⟨socket.id, .text jsonData⟩ else none)
    else if excludeId = some socket.id then none
    else some ⟨socket.id, .text jsonData⟩)

/-- `Hub.BroadcastMessage`. -/
def Hub.BroadcastMessage (h : Hub) (msg : Message) : List Delivery :=
  h.BroadcastMessageExcept msg none

/-- `Hub.BroadcastBinaryToAll`: binary to every non-banned socket, the
sender included. -/
def Hub.BroadcastBinaryToAll (h : Hub) (data : List Nat) : List Delivery :=
  h.sockets.filterMap (fun socket =>
    if socket.banned then none else some ⟨socket.id, .binary data⟩)

/-- `Hub.Notify`: targeted sends to listed IDs; absent or banned
recipients are skipped, never spooled. -/
def Hub.Notify (h : Hub) (socketIDs : List String) (event : String) (data : Json) : List Delivery :=
  let message : Message := { t := stringToMsgType event, data := data }
  let jsonData := encodeMessage message
  socketIDs.filterMap (fun socketID =>
    match h.GetSocket socketID with
    | some socket => if socket.banned then none else some ⟨socket.id, .text jsonData⟩
    | none => none)

/-- `Hub.Emit`: deliver to a present socket via `Socket.Send`; for an
absent one, build a message with a fresh ID and spool it in the
offline storage. -/
def Hub.Emit (h : Hub) (socketID : String) (event : String) (data : Json)
    (g : Gen) : List Delivery × Hub × Gen :=
  match h.GetSocket socketID with
  | some socket => (socket.Send event data, h, g)
  | none =>
    let msgType := stringToMsgType event
    let (mid, g) := generateMessageID g
    let message : Message := { t := msgType, data := data, id := mid }
    let (storage, g) := StoreMessage h.storage socketID message g
    ([], { h with storage := storage }, g)

/-- `Hub.EmitBinary`: binary to a present non-banned socket; an absent
*or banned-and-present* lookup falls to the else branch, which spools a
`MsgFile` message whose data is the raw byte slice. -/
def Hub.EmitBinary (h : Hub) (socketID : String) (data : List Nat)
    (g : Gen) : List Delivery × Hub × Gen :=
  match h.GetSocket socketID with
  | some socket =>
    if socket.banned then
      let (mid, g) := generateMessageID g
      let message : Message := { t := MsgFile, data := .bytes data, id := mid }
      let (storage, g) := StoreMessage h.storage socketID message g
      ([], { h with storage := storage }, g)
    else
      ([⟨socket.id, .binary data⟩], h, g)
  | none =>
    let (mid, g) := generateMessageID g
    let message : Message := { t := MsgFile, data := .bytes data, id := mid }
    let (storage, g) := StoreMessage h.storage socketID message g
    ([], { h with storage := storage }, g)

/-- `Hub.GetUserList`: the non-banned sockets as (id, alias) pairs, in
registry order (each Go entry is the map with keys "id" and "alias"). -/
def Hub.GetUserList (h : Hub) : List (String × String) :=
  (h.sockets.filter (fun s => !s.banned)).map (fun s => (s.id, s.GetAlias))

/-- `Hub.GetAllTopics`: the union of subscription sets over non-banned
sockets, first occurrence order standing in for Go's map iteration. -/
def Hub.GetAllTopics (h : Hub) : List String :=
  ((h.sockets.filter (fun s => !s.banned)).flatMap (fun s => s.subscriptions)).dedup

/-- The per-message transformation inside `Hub.DeliverOfflineMessages`:
ensure `data` is an object, then set `offline` and `delivered_at` (keys
listed in Go-marshal sorted order); non-map data is left untouched. -/
def markOffline (msg : Message) (now : Int) : Message :=
  let d := if msg.data.isNull then Json.obj [] else msg.data
  match d with
  | .obj fs => { msg with data := .obj (objUpsert (objUpsert fs "offline" (.bool true)) "delivered_at" (.num now)) }
  | other => { msg with data := other }

/-- `Hub.DeliverOfflineMessages`: fetch the recipient's spooled
messages, send each (marked offline) through `Socket.SendMessage`,
collect the non-empty *inner* message IDs, and delete those in one
call. -/
def Hub.DeliverOfflineMessages (h : Hub) (socket : SocketSt) (g : Gen) : List Delivery × Hub :=
  let messages := GetMessages h.storage socket.id
  let messageIDs := (messages.filter (fun m => m.id ≠ "")).map (·.id)
  let deliveries := messages.flatMap (fun msg => socket.SendMessage (markOffline msg g.now))
  if messageIDs.isEmpty then
    (deliveries, h)
  else
    (deliveries, { h with storage := DeleteMessages h.storage socket.id messageIDs })

/-- `Hub.NewSocket`: admission under the hub lock.  At or above the cap
the transport is closed (`true` in the last component) and nothing is
registered; otherwise a socket with a fresh clock-generated ID is
added and the count incremented. -/
def Hub.NewSocket (h : Hub) (g : Gen) : Option SocketSt × Hub × Gen × Bool :=
  if h.connCount ≥ h.maxConns then
    (none, h, g, true)
  else
    let (socketID, g) := generateSocketID g
    let socket : SocketSt := { id := socketID }
    (some socket, { h with sockets := h.sockets ++ [socket], connCount := h.connCount + 1 }, g, false)

/-- `Hub.RemoveSocket`: delete by ID and decrement the count only when
the socket was present. -/
def Hub.RemoveSocket (h : Hub) (socketID : String) : Hub :=
  match h.GetSocket socketID with
  | some _ =>
    { h with sockets := h.sockets.filter (fun s => s.id ≠ socketID),
             connCount := h.connCount - 1 }
  | none => h

/-- One observable registry operation: an admission (`Hub.NewSocket`)
or a removal (`Hub.RemoveSocket`). -/
inductive HubOp where
  | admitConn : HubOp
  | remove (socketID : String) : HubOp

/-- Apply one registry operation to the hub + clock state. -/
def applyOp (st : Hub × Gen) (op : HubOp) : Hub × Gen :=
  match st, op with
  | (h, g), .admitConn =>
    (match h.NewSocket g with
     | (_, h2, g2, _) => (h2, g2))
  | (h, g), .remove i => (h.RemoveSocket i, g)

/-- Run a sequence of admissions/removals from a fresh hub. -/
def runOps (ops : List HubOp) : Hub × Gen :=
  ops.foldl applyOp (NewHub, {})

/-- The registry well-formedness invariant: the count mirrors the
registry size, every ID was minted by a past clock reading, and IDs are
pairwise distinct (the Go map key property). -/
def HubWF (st : Hub × Gen) : Prop :=
  st.1.connCount = (st.1.sockets.length : Int)
  ∧ (∀ s ∈ st.1.sockets, ∃ k, k < st.2.counter ∧ s.id = natDecimal k)
  ∧ (st.1.sockets.map (fun s => s.id)).Nodup

/-! # CallManager (call/call.go)

The model takes the nil-database path throughout (`m.db != nil` guards
are skipped), as when the manager is constructed without a metadata
store; `uuid.New()` draws from the same monotone generator. -/

structure SignalingMessage where
  sigType : String := ""
  id : String := ""
  payload : Json := .null

structure Peer where
  id : String
  userId : String
  roomId : String
  role : String := "participant"
  displayName : String := ""
  joinedAt : Int := 0
  isMuted : Bool := false
  isOnHold : Bool := false

structure Room where
  id : String
  callId : String
  participants : List Peer := []
  createdAt : Int := 0

structure Manager where
  rooms : List Room := []
  peers : List (String × Peer) := []

/-- Outcome of one signaling step: updated manager, hub, clock and the
deliveries it produced. -/
abbrev SigResult := Manager × Hub × Gen × List Delivery

def Manager.getRoom (m : Manager) (roomID : String) : Option Room :=
  m.rooms.find? (fun r => r.id = roomID)

def Manager.getPeer (m : Manager) (socketID : String) : Option Peer :=
  m.peers.find? (fun p => p.1 = socketID) |>.map (·.2)

/-- Upsert a room by ID (Go map assignment `m.rooms[roomID] = room`). -/
def roomsUpsert : List Room → Room → List Room
  | [], r => [r]
  | x :: rest, r => if x.id = r.id then r :: rest else x :: roomsUpsert rest r

/-- Upsert a peer keyed by socket ID. -/
def peersUpsert : List (String × Peer) → String → Peer → List (String × Peer)
  | [], k, p => [(k, p)]
  | (k0, p0) :: rest, k, p =>
    if k0 = k then (k, p) :: rest else (k0, p0) :: peersUpsert rest k p

/-- Upsert into a room's participant table keyed by peer socket ID. -/
def participantsUpsert : List Peer → Peer → List Peer
  | [], p => [p]
  | x :: rest, p => if x.id = p.id then p :: rest else x :: participantsUpsert rest p

/-- `getOrCreateRoom` on the nil-database path: `uuid.New()` supplies
the call ID. -/
def Manager.getOrCreateRoom (m : Manager) (roomID : String) (g : Gen) : Room × Manager × Gen :=
  match m.rooms.find? (fun r => r.id = roomID) with
  | some room => (room, m, g)
  | none =>
    let callId := "uuid_" ++ toString g.counter
    let g := { g with counter := g.counter + 1 }
    let room : Room := { id := roomID, callId := callId, participants := [], createdAt := g.now }
    (room, { m with rooms := roomsUpsert m.rooms room }, g)

/-- `ParticipantInfo` marshalling (struct field order). -/
def participantInfoJson (p : Peer) : Json :=
  .obj [("id", .str p.id), ("user_id", .str p.userId),
        ("display_name", .str p.displayName), ("role", .str p.role)]

/-- `getRoomState` marshalled (struct field order; status always
"active"). -/
def Manager.getRoomStateJson (room : Room) : Json :=
  .obj [("room_id", .str room.id),
        ("participants", .arr (room.participants.map participantInfoJson)),
        ("call_id", .str room.callId),
        ("status", .str "active")]

/-- `broadcastToRoomExceptPtr`: send to every participant's socket other
than the excluded one.  Go holds `*ws.Socket` in each peer; here the
current socket state is the hub registry entry for the peer's ID. -/
def Manager.broadcastToRoomExceptPtr (h : Hub) (room : Room) (msg : Message)
    (excludeSocketID : String) : List Delivery :=
  room.participants.flatMap (fun peer =>
    if peer.id = excludeSocketID then []
    else
      match h.GetSocket peer.id with
      | some socket => socket.SendMessage msg
      | none => [])

/-- `broadcastToRoomExcept` (by room ID; missing room sends nothing). -/
def Manager.broadcastToRoomExcept (m : Manager) (h : Hub) (roomID : String) (msg : Message)
    (excludeSocketID : String) : List Delivery :=
  match m.getRoom roomID with
  | some room => Manager.broadcastToRoomExceptPtr h room msg excludeSocketID
  | none => []

/-- `sendError`. -/
def Manager.sendError (socket : SocketSt) (message : String) : List Delivery :=
  socket.SendMessage { t := MsgError, data := .obj [("message", .str message)] }

/-- `validateToken`: the source is a placeholder accepting every token
with the fixed user ID "user123". -/
def Manager.validateToken (_token : String) : Except String String :=
  .ok "user123"

/-- `handleAuth`. -/
def Manager.handleAuth (m : Manager) (h : Hub) (g : Gen) (socket : SocketSt)
    (msg : SignalingMessage) : SigResult :=
  match msg.payload with
  | .obj payload =>
    (match asString (alookup payload "token") with
     | none => (m, h, g, Manager.sendError socket "Missing token in auth payload")
     | some token =>
       match Manager.validateToken token with
       | .error _ => (m, h, g, Manager.sendError socket "Invalid token")
       | .ok userID =>
         let h := h.updateSocket socket.id
           (fun s => { s with props := objUpsert s.props "user_id" (.str userID) })
         let response : Message :=
           { t := MsgAck,
             data := .obj [("status", .str "authenticated"), ("user_id", .str userID)] }
         (m, h, g, socket.SendMessage response))
  | _ => (m, h, g, Manager.sendError socket "Invalid auth payload format")

/-- `handleJoin` (nil-database path).  The `userID.(string)` assertion
on the `user_id` property is unchecked in the source, hence the
`Except`. -/
def Manager.handleJoin (m : Manager) (h : Hub) (g : Gen) (socket : SocketSt)
    (msg : SignalingMessage) : Except String SigResult :=
  match msg.payload with
  | .obj payload =>
    (match asString (alookup payload "room") with
     | none => .ok (m, h, g, Manager.sendError socket "Missing room in join payload")
     | some room =>
       match asString (alookup payload "display_name") with
       | none => .ok (m, h, g, Manager.sendError socket "Missing display_name in join payload")
       | some displayName =>
         match alookup socket.props "user_id" with
         | none => .ok (m, h, g, Manager.sendError socket "Not authenticated")
         | some userIDVal =>
           match userIDVal with
           | .str userID =>
             let (roomObj, m, g) := m.getOrCreateRoom room g
             let peer : Peer :=
               { id := socket.id, userId := userID, roomId := room,
                 displayName := displayName, joinedAt := g.now }
             let roomObj := { roomObj with participants := participantsUpsert roomObj.participants peer }
             let m := { m with rooms := roomsUpsert m.rooms roomObj,
                               peers := peersUpsert m.peers socket.id peer }
             let joinedMsg : Message :=
               { t := MsgJoined,
                 data := .obj [("participant_id", .str socket.id),
                               ("room_state", Manager.getRoomStateJson roomObj)] }
             let peerJoinedMsg : Message :=
               { t := MsgPeerJoined,
                 data := .obj [("participant", participantInfoJson peer)] }
             .ok (m, h, g,
               socket.SendMessage joinedMsg
                 ++ Manager.broadcastToRoomExceptPtr h roomObj peerJoinedMsg socket.id)
           | _ => .error "interface conversion: user_id property is not a string"
     )
  | _ => .ok (m, h, g, Manager.sendError socket "Invalid join payload format")

/-- `handleOffer`: malformed payloads return silently. -/
def Manager.handleOffer (m : Manager) (h : Hub) (g : Gen) (socket : SocketSt)
    (msg : SignalingMessage) : SigResult :=
  match msg.payload with
  | .obj payload =>
    (match asString (alookup payload "sdp") with
     | none => (m, h, g, [])
     | some sdp =>
       let callID := (asString (alookup payload "call_id")).getD ""
       match m.getPeer socket.id with
       | none => (m, h, g, [])
       | some peer =>
         let offerMsg : Message :=
           { t := MsgOffer,
             data := .obj [("call_id", .str callID), ("from", .str socket.id),
                           ("sdp", .str sdp)] }
         (m, h, g, m.broadcastToRoomExcept h peer.roomId offerMsg socket.id))
  | _ => (m, h, g, [])

/-- `handleAnswer`. -/
def Manager.handleAnswer (m : Manager) (h : Hub) (g : Gen) (socket : SocketSt)
    (msg : SignalingMessage) : SigResult :=
  match msg.payload with
  | .obj payload =>
    (match asString (alookup payload "sdp") with
     | none => (m, h, g, [])
     | some sdp =>
       let callID := (asString (alookup payload "call_id")).getD ""
       match m.getPeer socket.id with
       | none => (m, h, g, [])
       | some peer =>
         let answerMsg : Message :=
           { t := MsgAnswer,
             data := .obj [("call_id", .str callID), ("from", .str socket.id),
                           ("sdp", .str sdp)] }
         (m, h, g, m.broadcastToRoomExcept h peer.roomId answerMsg socket.id))
  | _ => (m, h, g, [])

/-- `handleICECandidate`. -/
def Manager.handleICECandidate (m : Manager) (h : Hub) (g : Gen) (socket : SocketSt)
    (msg : SignalingMessage) : SigResult :=
  match msg.payload with
  | .obj payload =>
    (match asString (alookup payload "candidate") with
     | none => (m, h, g, [])
     | some candidate =>
       let sdpMid := (asString (alookup payload "sdpMid")).getD ""
       let sdpMLineIndex := (asNum (alookup payload "sdpMLineIndex")).getD 0
       match m.getPeer socket.id with
       | none => (m, h, g, [])
       | some peer =>
         let iceMsg : Message :=
           { t := MsgIceCandidate,
             data := .obj [("candidate", .str candidate), ("from", .str socket.id),
                           ("sdpMLineIndex", .num sdpMLineIndex), ("sdpMid", .str sdpMid)] }
         (m, h, g, m.broadcastToRoomExcept h peer.roomId iceMsg socket.id))
  | _ => (m, h, g, [])

/-- Propagate an updated peer record to both indices that share the Go
pointer (the manager's peer table and the room's participant table). -/
def Manager.updatePeer (m : Manager) (peer : Peer) : Manager :=
  { m with peers := peersUpsert m.peers peer.id peer,
           rooms := m.rooms.map (fun r =>
             if r.id = peer.roomId then
               { r with participants := participantsUpsert r.participants peer }
             else r) }

/-- `handleMute` (also handles "unmute"). -/
def Manager.handleMute (m : Manager) (h : Hub) (g : Gen) (socket : SocketSt)
    (msg : SignalingMessage) : SigResult :=
  match msg.payload with
  | .obj payload =>
    let callID := (asString (alookup payload "call_id")).getD ""
    let track := (asString (alookup payload "track")).getD "audio"
    (match m.getPeer socket.id with
     | none => (m, h, g, [])
     | some peer =>
       let isMuted := msg.sigType = "mute"
       let peer := { peer with isMuted := isMuted }
       let m := m.updatePeer peer
       let muteMsg : Message :=
         { t := MsgMute,
           data := .obj [("call_id", .str callID), ("from", .str socket.id),
                         ("muted", .bool isMuted), ("track", .str track)] }
       (m, h, g, m.broadcastToRoomExcept h peer.roomId muteMsg socket.id))
  | _ => (m, h, g, [])

/-- `handleHold`. -/
def Manager.handleHold (m : Manager) (h : Hub) (g : Gen) (socket : SocketSt)
    (msg : SignalingMessage) : SigResult :=
  match msg.payload with
  | .obj payload =>
    let callID := (asString (alookup payload "call_id")).getD ""
    let track := (asString (alookup payload "track")).getD "audio"
    (match m.getPeer socket.id with
     | none => (m, h, g, [])
     | some peer =>
       let peer := { peer with isOnHold := true }
       let m := m.updatePeer peer
       let holdMsg : Message :=
         { t := MsgHold,
           data := .obj [("call_id", .str callID), ("from", .str socket.id),
                         ("track", .str track)] }
       (m, h, g, m.broadcastToRoomExcept h peer.roomId holdMsg socket.id))
  | _ => (m, h, g, [])

/-- `handleDTMF`. -/
def Manager.handleDTMF (m : Manager) (h : Hub) (g : Gen) (socket : SocketSt)
    (msg : SignalingMessage) : SigResult :=
  match msg.payload with
  | .obj payload =>
    let callID := (asString (alookup payload "call_id")).getD ""
    (match asString (alookup payload "tones") with
     | none => (m, h, g, [])
     | some tones =>
       match m.getPeer socket.id with
       | none => (m, h, g, [])
       | some peer =>
         let dtmfMsg : Message :=
           { t := MsgDTMF,
             data := .obj [("call_id", .str callID), ("from", .str socket.id),
                           ("tones", .str tones)] }
         (m, h, g, m.broadcastToRoomExcept h peer.roomId dtmfMsg socket.id))
  | _ => (m, h, g, [])

/-- `Manager.HandleSignalingMessage`: the entry point delegated to by
the dispatcher.  When `msg.Data` is a JSON object the source reads
`data["type"].(string)` and `data["id"].(string)` with *unchecked* type
assertions — a missing or non-string "type" or "id" key panics the
process; that panic is the `Except.error` case. -/
def Manager.HandleSignalingMessage (m : Manager) (h : Hub) (g : Gen) (socketID : String)
    (msg : Message) : Except String SigResult :=
  match h.GetSocket socketID with
  | none => .ok (m, h, g, [])
  | some socket =>
    let parsed : Except String SignalingMessage :=
      match msg.data with
      | .obj data =>
        (match alookup data "type" with
         | some (.str ty) =>
           (match alookup data "id" with
            | some (.str i) => .ok { sigType := ty, id := i, payload := (alookup data "payload").getD .null }
            | _ => .error "interface conversion: data id key is not a string")
         | _ => .error "interface conversion: data type key is not a string")
      | _ => .ok { sigType := msgTypeToString msg.t, id := msg.id, payload := msg.data }
    match parsed with
    | .error reason => .error reason
    | .ok sig =>
      if sig.sigType = "auth" then .ok (m.handleAuth h g socket sig)
      else if sig.sigType = "join" then m.handleJoin h g socket sig
      else if sig.sigType = "offer" then .ok (m.handleOffer h g socket sig)
      else if sig.sigType = "answer" then .ok (m.handleAnswer h g socket sig)
      else if sig.sigType = "ice-candidate" then .ok (m.handleICECandidate h g socket sig)
      else if sig.sigType = "mute" ∨ sig.sigType = "unmute" then .ok (m.handleMute h g socket sig)
      else if sig.sigType = "hold" then .ok (m.handleHold h g socket sig)
      else if sig.sigType = "dtmf" then .ok (m.handleDTMF h g socket sig)
      else .ok (m, h, g, [])

/-! # Server dispatcher (server.go) -/

/-- The server-process state threaded through one dispatch step: the hub
(with its storage), the clock/ID generator, and the optional call
manager. -/
structure ServerSt where
  hub : Hub := {}
  gen : Gen := {}
  callManager : Option Manager := none

/-- Result of dispatching one inbound text/binary payload: either the
updated state with the enqueues it produced, or a Go panic (which kills
the process — there is no `recover` anywhere in the source). -/
inductive StepResult where
  | ok (st : ServerSt) (out : List Delivery) : StepResult
  | panicked (reason : String) : StepResult

/-- The ack reply used for unknown types and for signaling frames when
no call manager is installed. -/
def ackReceivedMsg : Message :=
  { t := MsgAck, data := .obj [("status", .str "received")] }

/-- The `user_list` reply built from the current hub state (Go marshals
each user map with its keys in sorted order: "alias" then "id"). -/
def userListMessage (h : Hub) : Message :=
  { t := MsgUserList,
    data := .obj [("users", .arr (h.GetUserList.map (fun p =>
      .obj [("alias", .str p.2), ("id", .str p.1)])))] }

/-- The `topic_list_update` system message. -/
def topicListMessage (h : Hub) : Message :=
  { t := MsgSystem,
    data := .obj [("topics", .arr (h.GetAllTopics.map .str)),
                  ("type", .str "topic_list_update")] }

/-- `handleUnifiedMessage`: the dispatcher switch over `msg.T`.
Handler-callback triggering (`triggerHandlers`) carries no hub effects
and is omitted.  The initial socket lookup stands for the Go socket
pointer argument (it never fails for a live connection). -/
def handleUnifiedMessage (st : ServerSt) (senderId : String) (msg : Message) : StepResult :=
  match st.hub.GetSocket senderId with
  | none => .ok st []
  | some sender =>
    if msg.t = MsgSubscribe then
      let hub := st.hub.updateSocket senderId (fun s => s.Subscribe msg.topic)
      let response : Message :=
        { t := MsgAck, data := .obj [("action", .str "subscribed"), ("topic", .str msg.topic)] }
      .ok { st with hub := hub }
        (sender.SendMessage response ++ hub.BroadcastMessage (topicListMessage hub))
    else if msg.t = MsgUnsubscribe then
      let hub := st.hub.updateSocket senderId (fun s => s.Unsubscribe msg.topic)
      let response : Message :=
        { t := MsgAck, data := .obj [("action", .str "unsubscribed"), ("topic", .str msg.topic)] }
      .ok { st with hub := hub }
        (sender.SendMessage response ++ hub.BroadcastMessage (topicListMessage hub))
    else if msg.t = MsgBroadcast then
      let broadcastMsg : Message := { t := MsgBroadcast, topic := msg.topic, data := msg.data }
      .ok st (st.hub.BroadcastMessageExcept broadcastMsg (some senderId))
    else if msg.t = MsgPing then
      let pongMsg : Message :=
        { t := MsgPong, data := .obj [("timestamp", .num st.gen.now)] }
      .ok st (sender.SendMessage pongMsg)
    else if msg.t = MsgFile then
      .ok { st with hub := st.hub.updateSocket senderId (fun s => { s with pendingFile := some msg }) } []
    else if msg.t = MsgTyping then
      let typingMsg : Message :=
        { t := MsgTyping,
          data := .obj [("from", .str sender.GetAlias), ("typing", msg.data)] }
      .ok st (st.hub.BroadcastMessageExcept typingMsg (some senderId))
    else if msg.t = MsgDirect then
      if msg.toId ≠ "" then
        let (mid, g) := generateMessageID st.gen
        let directMsg : Message :=
          { t := MsgDirect, data := msg.data, fromAlias := sender.GetAlias, id := mid }
        match st.hub.GetSocket msg.toId with
        | some targetSocket => .ok { st with gen := g } (targetSocket.SendMessage directMsg)
        | none => .ok { st with gen := g } []
      else .ok st []
    else if msg.t = MsgThread then
      if msg.threadId ≠ "" then
        let (mid, g) := generateMessageID st.gen
        let threadMsg : Message :=
          { t := MsgThread, data := msg.data, fromAlias := sender.GetAlias, id := mid,
            threadId := msg.threadId, replyTo := msg.replyTo }
        if msg.toId ≠ "" then
          let (out, hub, g) := st.hub.Emit msg.toId "thread" threadMsg.data g
          .ok { st with hub := hub, gen := g } out
        else
          .ok { st with gen := g } (st.hub.BroadcastMessageExcept threadMsg (some senderId))
      else .ok st []
    else if msg.t = MsgUserList then
      .ok st (sender.SendMessage (userListMessage st.hub))
    else if msg.t = MsgSetAlias then
      match msg.data with
      | .obj aliasData =>
        (match asString (alookup aliasData "alias") with
         | some al =>
           if al ≠ "" then
             let hub := st.hub.updateSocket senderId (fun s => { s with aliasName := al })
             let aliasMsg : Message :=
               { t := MsgSystem,
                 data := .obj [("alias", .str al),
                               ("message", .str (sender.id.take 12 ++ " is now known as " ++ al)),
                               ("type", .str "alias_change"),
                               ("userId", .str sender.id)] }
             .ok { st with hub := hub }
               (hub.BroadcastMessage aliasMsg ++ hub.BroadcastMessage (userListMessage hub))
           else .ok st []
         | none => .ok st [])
      | _ => .ok st []
    else if msg.t = MsgAuth ∨ msg.t = MsgJoin ∨ msg.t = MsgOffer ∨ msg.t = MsgAnswer
        ∨ msg.t = MsgIceCandidate ∨ msg.t = MsgMute ∨ msg.t = MsgUnmute
        ∨ msg.t = MsgHold ∨ msg.t = MsgDTMF then
      match st.callManager with
      | some cm =>
        (match cm.HandleSignalingMessage st.hub st.gen senderId msg with
         | .ok (m, hub, g, out) =>
           .ok { st with hub := hub, gen := g, callManager := some m } out
         | .error reason => .panicked reason)
      | none => .ok st (sender.SendMessage ackReceivedMsg)
    else
      .ok st (sender.SendMessage ackReceivedMsg)

/-- `strings.SplitN(s, ":", 3)`. -/
def splitN3 (s : String) : List String :=
  match s.splitOn ":" with
  | [] => []
  | [a] => [a]
  | [a, b] => [a, b]
  | a :: b :: rest => [a, b, String.intercalate ":" rest]

/-- `handleTextMessage`: the plain-text fallback protocol.  Its
subscribe/unsubscribe branches only acknowledge (the source never
touches the subscription set here). -/
def handleTextMessage (st : ServerSt) (senderId : String) (message : String) : StepResult :=
  match st.hub.GetSocket senderId with
  | none => .ok st []
  | some socket =>
    if message.startsWith "subscribe:" then
      let topic := message.drop "subscribe:".length
      let response : Message :=
        { t := MsgAck, data := .obj [("action", .str "subscribed"), ("topic", .str topic)] }
      .ok st (socket.SendMessage response)
    else if message.startsWith "unsubscribe:" then
      let topic := message.drop "unsubscribe:".length
      let response : Message :=
        { t := MsgAck, data := .obj [("action", .str "unsubscribed"), ("topic", .str topic)] }
      .ok st (socket.SendMessage response)
    else if message.startsWith "publish:" then
      match splitN3 message with
      | [_, topic, dataPart] =>
        let broadcastMsg : Message := { t := MsgBroadcast, topic := topic, data := .str dataPart }
        .ok st (st.hub.BroadcastMessageExcept broadcastMsg (some senderId))
      | _ => .ok st []
    else .ok st []

/-- An inbound text frame, pre-classified by whether its bytes parse as
JSON (Go runs `json.Unmarshal` and falls back to the raw string). -/
inductive TextFrameIn where
  | json (j : Json) (raw : String) : TextFrameIn
  | raw (s : String) : TextFrameIn

/-- `handleMessage`: JSON routing with plain-text fallback. -/
def handleMessage (st : ServerSt) (senderId : String) (input : TextFrameIn) : StepResult :=
  match input with
  | .json j raw =>
    (match decodeMessage j with
     | some msg => handleUnifiedMessage st senderId msg
     | none => handleTextMessage st senderId raw)
  | .raw s => handleTextMessage st senderId s

/-- The outbound file announcement `handleBinaryMessage` synthesizes
from the sender and its pending metadata: the Go literal map
`filename/size/from` (keys in marshal-sorted order) with `filename` and
`size` copied from the pending metadata's data map when present. -/
def fileAnnouncement (socket : SocketSt) (pending : Message) : Message :=
  let baseData : List (String × Json) :=
    [("filename", .str "unknown"), ("from", .str socket.GetAlias), ("size", .num 0)]
  let fileData := match pending.data with
    | .obj dataMap =>
      let d := match alookup dataMap "filename" with
        | some v => objUpsert baseData "filename" v
        | none => baseData
      (match alookup dataMap "size" with
       | some v => objUpsert d "size" v
       | none => d)
    | _ => baseData
  { t := MsgFile, data := .obj fileData }

/-- `handleBinaryMessage`: pair the binary frame with the pending file
metadata and route per the metadata's `to`/`topic`. -/
def handleBinaryMessage (st : ServerSt) (senderId : String) (payload : List Nat) : StepResult :=
  match st.hub.GetSocket senderId with
  | none => .ok st []
  | some socket =>
    match socket.pendingFile with
    | none => .ok st []
    | some pending =>
      let fileMsg : Message := fileAnnouncement socket pending
      if pending.toId ≠ "" then
        let (out1, hub, g) := st.hub.Emit pending.toId "file" fileMsg.data st.gen
        let (out2, hub, g) := hub.EmitBinary pending.toId payload g
        let hub := hub.updateSocket senderId (fun s => { s with pendingFile := none })
        .ok { st with hub := hub, gen := g } (out1 ++ out2)
      else if pending.topic ≠ "" then
        let fileMsg := { fileMsg with topic := pending.topic }
        let out := st.hub.BroadcastMessageExcept fileMsg (some senderId)
          ++ st.hub.BroadcastBinaryToAll payload
        let hub := st.hub.updateSocket senderId (fun s => { s with pendingFile := none })
        .ok { st with hub := hub } out
      else
        let out := st.hub.BroadcastMessageExcept fileMsg (some senderId)
          ++ st.hub.BroadcastBinaryToAll payload
        let hub := st.hub.updateSocket senderId (fun s => { s with pendingFile := none })
        .ok { st with hub := hub } out

/-- One inbound transport frame as seen by `handleConnection`. -/
inductive Frame where
  | text (input : TextFrameIn) : Frame
  | binary (payload : List Nat) : Frame
  | close : Frame
  | ping (payload : List Nat) : Frame
  | pong (payload : List Nat) : Frame

/-- Result of one `handleConnection` loop iteration. -/
inductive ConnStep where
  | next (st : ServerSt) (out : List Delivery) : ConnStep
  | closed (st : ServerSt) : ConnStep
  | panicked (reason : String) : ConnStep

/-- One iteration of the `handleConnection` read loop: text and binary
frames are dispatched (regardless of the sender's banned flag), a close
frame terminates the loop, a ping is answered with a pong echoing the
payload, and a pong frame has no case in the switch. -/
def handleFrame (st : ServerSt) (senderId : String) (frame : Frame) : ConnStep :=
  match frame with
  | .text input =>
    (match handleMessage st senderId input with
     | .ok st out => .next st out
     | .panicked r => .panicked r)
  | .binary payload =>
    (match handleBinaryMessage st senderId payload with
     | .ok st out => .next st out
     | .panicked r => .panicked r)
  | .close => .closed st
  | .ping payload => .next st [⟨senderId, .pong payload⟩]
  | .pong _ => .next st []

/-! # Concrete scenario states used by the claim theorems -/

/-- The C2 scenario: `Hub.Emit` to the absent recipient "X" spools one
message (inner message ID "msg_0", synthetic stored ID "msg_1"). -/
def emitC2 : List Delivery × Hub × Gen :=
  Hub.Emit {} "X" "direct" (.obj [("m", .str "later")]) {}

/-- First reconnect drain of "X". -/
def drain1C2 : List Delivery × Hub :=
  emitC2.2.1.DeliverOfflineMessages { id := "X" } emitC2.2.2

/-- Second reconnect drain of "X". -/
def drain2C2 : List Delivery × Hub :=
  drain1C2.2.DeliverOfflineMessages { id := "X" } emitC2.2.2

/-- The C7 hub: sender "A" and one other socket "B". -/
def stC7 : ServerSt :=
  { hub := { sockets := [{ id := "A" }, { id := "B" }], connCount := 2 } }

/-- The C4 witness hub: "A" subscribes to "news", "B" does not. -/
def sockA4 : SocketSt := { id := "A", subscriptions := ["news"] }

def sockB4 : SocketSt := { id := "B" }

def hubC4 : Hub := { sockets := [sockA4, sockB4], connCount := 2 }

def msgC4 : Message := { t := 1, topic := "news", data := .str "hi" }

/-- The C5 counterexample state: "A" is banned, "B" is not. -/
def stC5 : ServerSt :=
  { hub := { sockets := [{ id := "A", banned := true }, { id := "B" }], connCount := 2 } }

/-- The C6 counterexample state: sender "A" holds pending metadata with
neither `to` nor `topic`; "B" is the only other socket. -/
def stC6 : ServerSt :=
  { hub := { sockets :=
      [{ id := "A",
         pendingFile := some { t := 10, data := .obj [("filename", .str "x.bin"), ("size", .num 5)] } },
       { id := "B" }], connCount := 2 } }

/-- The C10 witness hub: "A" live, "B" banned but still registered. -/
def hubC10 : Hub :=
  { sockets := [{ id := "A" }, { id := "B", banned := true }], connCount := 2 }

/-! # Claim C1: direct message to an absent recipient -/

/-- C1: REFUTED on the code (code bug).  An inbound direct message
(t=12) addressed to an ID not present in the hub is silently dropped by
the dispatcher: `handleUnifiedMessage`'s `MsgDirect` case only looks the
target up with `GetSocket` and sends when present — it never calls
`Hub.Emit` or the offline storage.  Here socket "A" sends a direct
message to absent "X": the step produces no deliveries and leaves the
offline storage empty (only the ID generator ticked for the discarded
message ID).  The claim (and the repository README's offline-messaging
contract) requires the message to be stored under "X". -/
theorem C1_direct_to_absent_recipient_dropped_not_stored :
    ∃ st' : ServerSt,
      handleUnifiedMessage { hub := { sockets := [{ id := "A" }], connCount := 1 } } "A"
          { t := 12, toId := "X", data := .obj [("m", .str "later")] }
        = .ok st' []
      ∧ st'.hub.storage.messages = [] := by
  exact ⟨_, rfl, rfl⟩

/-! # Claim C2: offline drain deletes nothing and redelivers -/

/-- C2: REFUTED on the code (code bug).  The first drain does deliver
exactly one copy with `data.offline=true` and `data.delivered_at` set,
but `DeliverOfflineMessages` collects the *inner* `Message.ID` values
("msg_0") while `InMemoryMessageStorage.DeleteMessages` filters on the
*synthetic* `StoredMessage.ID` values ("msg_1", minted by a separate
`generateMessageID` call inside `StoreMessage`).  Nothing matches, so
nothing is deleted and a second reconnect delivers the same message
again instead of zero additional copies. -/
theorem C2_offline_message_redelivered_on_second_reconnect :
    emitC2.1 = []
    ∧ drain1C2.1 = [⟨"X", .text (encodeMessage
        { t := MsgDirect,
          data := .obj [("m", .str "later"), ("offline", .bool true), ("delivered_at", .num 0)],
          id := "msg_0" })⟩]
    ∧ drain1C2.2.storage = emitC2.2.1.storage
    ∧ drain2C2.1.length = 1 := by
  exact ⟨rfl, rfl, rfl, rfl⟩

/-! # Claim C3: malformed signaling payload panics the process -/

/-- C3: REFUTED on the code (code bug).  A well-formed auth frame
`(t:16, data containing only a token)` reaches
`Manager.HandleSignalingMessage`, whose first step performs the
unchecked type assertions `data["type"].(string)` and
`data["id"].(string)`; with no "type" key the assertion panics, and no
`recover` exists anywhere in the source, so the process dies.  The
claim (and spec §4's failure semantics) require the frame to be dropped
with at most an error reply. -/
theorem C3_auth_frame_without_type_key_panics :
    handleUnifiedMessage
        { hub := { sockets := [{ id := "A" }], connCount := 1 }, callManager := some {} } "A"
        { t := 16, data := .obj [("token", .str "abc")] }
      = .panicked "interface conversion: data type key is not a string" := by
  rfl

/-! # Claim C7: thread messages -/

/-- C7: REFUTED on the code (code bug).  (i) No inbound decoder reads
`threadId` or `replyTo`: the canonical thread frame decodes with
`threadId = ""`.  (ii) The dispatcher's `MsgThread` case is guarded by
`msg.ThreadID != ""`, so every inbound thread frame is dropped without
any delivery.  (iii) Even with `threadId` populated and `to` set, the
source forwards only `threadMsg.Data` through `Hub.Emit`, so the
delivered message carries neither `threadId` nor `replyTo` (its ID is
even overwritten with the recipient's socket ID by `Socket.Send`). -/
theorem C7_thread_fields_never_parsed_and_direct_path_loses_them :
    decodeMessage (.obj [("t", .num 13), ("threadId", .str "t1"),
        ("replyTo", .str "m0"), ("data", .str "hi")])
      = some { t := 13, data := .str "hi" }
    ∧ handleUnifiedMessage stC7 "A" { t := 13, data := .str "hi" } = .ok stC7 []
    ∧ handleUnifiedMessage stC7 "A"
        { t := 13, toId := "B", data := .str "hi", threadId := "t1", replyTo := "m0" }
      = .ok { stC7 with gen := { counter := 1 } }
          [⟨"B", .text (encodeMessage { t := MsgThread, data := .str "hi", id := "B" })⟩] := by
  exact ⟨rfl, rfl, rfl⟩

/-! # Claim C8: codec round-trip -/

/-- C8 counterexample: a canonical message carrying a `threadId` does
not survive decode (the object parser never reads `threadId`, `replyTo`
or `from`), so encode-after-decode is not the identity on canonical
messages. -/
theorem C8_counterexample_threadId_lost_in_roundtrip :
    decodeMessage (encodeMessage { t := 13, threadId := "a" })
      ≠ some { t := 13, threadId := "a" } := by
  simp [decodeMessage, encodeMessage, decodeObjectForm, alookup, asString, asNum,
    Json.isNull, Message.mk.injEq]
  decide

/-- Nil test characterization for the Go interface payload. -/
theorem json_isNull_eq_true_iff (j : Json) : j.isNull = true ↔ j = .null := by
  cases j <;> simp [Json.isNull]

/-- C8: CORRECTED (amended).  (i) Encode-after-decode is the identity on
canonical messages whose `threadId`, `replyTo` and `from` are empty —
the object parser never reads those keys, which is what the
counterexample exploits.  (ii) The positional array
`[t, topic, data, id, to, code]` of such a message decodes to the
identical canonical Message.  (iii) The legacy keyword form decodes to
the identical Message provided the event name maps to the message's tag
under `stringToMsgType` (which sends "subscribe"/"unsubscribe"/"ack" to
the default tag 3, so those legacy names do not agree) and the message
carries no `to`/`code` (the legacy form has no such keys). -/
theorem C8_amended_roundtrip_and_parser_agreement :
    (∀ m : Message, m.threadId = "" → m.replyTo = "" → m.fromAlias = "" →
      decodeMessage (encodeMessage m) = some m)
    ∧ (∀ m : Message, m.threadId = "" → m.replyTo = "" → m.fromAlias = "" →
      decodeMessage (.arr [.num m.t, .str m.topic, m.data, .str m.id, .str m.toId, .num m.code])
        = some m)
    ∧ (∀ (m : Message) (event : String),
      m.threadId = "" → m.replyTo = "" → m.fromAlias = "" → m.toId = "" → m.code = 0 →
      stringToMsgType event = m.t →
      decodeMessage (.obj [("event", .str event), ("topic", .str m.topic),
          ("data", m.data), ("id", .str m.id)])
        = some m) := by
  refine ⟨?_, ?_, ?_⟩
  · intro m h1 h2 h3
    obtain ⟨t, topic, toId, data, code, id, threadId, replyTo, fromAlias⟩ := m
    simp only at h1 h2 h3
    subst h1; subst h2; subst h3
    by_cases ht : topic = "" <;> by_cases hto : toId = "" <;>
      by_cases hd : data = Json.null <;> by_cases hc : code = 0 <;> by_cases hid : id = "" <;>
      simp [ht, hto, hd, hc, hid, encodeMessage, decodeMessage, decodeObjectForm,
        alookup, asString, asNum, goSetMapField, json_isNull_eq_true_iff, Json.isNull]
  · intro m h1 h2 h3
    obtain ⟨t, topic, toId, data, code, id, threadId, replyTo, fromAlias⟩ := m
    simp only at h1 h2 h3
    subst h1; subst h2; subst h3
    simp [decodeMessage, decodeArrayForm]
  · intro m event h1 h2 h3 h4 h5 hevent
    obtain ⟨t, topic, toId, data, code, id, threadId, replyTo, fromAlias⟩ := m
    simp only at h1 h2 h3 h4 h5 hevent
    subst h1; subst h2; subst h3; subst h4; subst h5
    simp [decodeMessage, decodeObjectForm, decodeLegacyForm, alookup, asString, hevent]

/-- C8 witness: the amended round-trip and the positional/legacy
agreement instantiated on one concrete message (and the legacy event
name "direct"). -/
theorem C8_amended_roundtrip_and_parser_agreement_witness :
    decodeMessage (encodeMessage { t := 12, topic := "news", toId := "B", data := .str "x", code := 7, id := "i1" })
      = some { t := 12, topic := "news", toId := "B", data := .str "x", code := 7, id := "i1" }
    ∧ decodeMessage (.arr [.num 12, .str "news", .str "x", .str "i1", .str "B", .num 7])
      = some { t := 12, topic := "news", toId := "B", data := .str "x", code := 7, id := "i1" }
    ∧ decodeMessage (.obj [("event", .str "direct"), ("topic", .str "news"),
        ("data", .str "x"), ("id", .str "i1")])
      = some { t := 12, topic := "news", data := .str "x", id := "i1" } :=
  ⟨C8_amended_roundtrip_and_parser_agreement.1
      { t := 12, topic := "news", toId := "B", data := .str "x", code := 7, id := "i1" } rfl rfl rfl,
   C8_amended_roundtrip_and_parser_agreement.2.1
      { t := 12, topic := "news", toId := "B", data := .str "x", code := 7, id := "i1" } rfl rfl rfl,
   C8_amended_roundtrip_and_parser_agreement.2.2
      { t := 12, topic := "news", data := .str "x", id := "i1" } "direct" rfl rfl rfl rfl rfl rfl⟩

/-! # Registry helper lemmas (unique socket IDs) -/

/-- In a registry whose IDs are distinct, two members with equal IDs are
the same socket (the Go map has one value per key). -/
theorem eq_of_mem_of_id_eq {l : List SocketSt} {x S : SocketSt}
    (hN : (l.map (fun s => s.id)).Nodup) (hx : x ∈ l) (hS : S ∈ l)
    (hid : x.id = S.id) : x = S := by
  induction l with
  | nil => cases hx
  | cons a tl ih =>
    rw [List.map_cons, List.nodup_cons] at hN
    rcases List.mem_cons.mp hx with hxa | hxtl
    · rcases List.mem_cons.mp hS with hSa | hStl
      · rw [hxa, hSa]
      · exfalso
        apply hN.1
        rw [← hxa, hid]
        exact List.mem_map.mpr ⟨S, hStl, rfl⟩
    · rcases List.mem_cons.mp hS with hSa | hStl
      · exfalso
        apply hN.1
        rw [← hSa, ← hid]
        exact List.mem_map.mpr ⟨x, hxtl, rfl⟩
      · exact ih hN.2 hxtl hStl

/-- With distinct IDs, `find?` by a member's ID returns that member
(`Hub.GetSocket` semantics of the Go map lookup). -/
theorem find_id_of_nodup {l : List SocketSt} {S : SocketSt}
    (hN : (l.map (fun s => s.id)).Nodup) (hS : S ∈ l) :
    l.find? (fun s => s.id = S.id) = some S := by
  induction l with
  | nil => cases hS
  | cons a tl ih =>
    by_cases ha : a.id = S.id
    · have haS : a = S := by
        rcases List.mem_cons.mp hS with hSa | hStl
        · rw [hSa]
        · exact eq_of_mem_of_id_eq hN (List.mem_cons_self a tl) hS ha
      rw [List.find?_cons_of_pos _ (by simp [ha])]
      rw [haS]
    · have hStl : S ∈ tl := by
        rcases List.mem_cons.mp hS with hSa | hStl
        · exact absurd (show a.id = S.id by rw [hSa]) ha
        · exact hStl
      rw [List.find?_cons_of_neg _ (by simp [ha])]
      rw [List.map_cons, List.nodup_cons] at hN
      exact ih hN.2 hStl

/-- With distinct IDs a member has no other member sharing its ID, so
filtering the registry by that ID keeps exactly that member. -/
theorem filter_id_of_nodup {l : List SocketSt} {S : SocketSt}
    (hN : (l.map (fun s => s.id)).Nodup) (hS : S ∈ l) :
    l.filter (fun s => s.id = S.id) = [S] := by
  induction l with
  | nil => cases hS
  | cons a tl ih =>
    rw [List.map_cons, List.nodup_cons] at hN
    rcases List.mem_cons.mp hS with hSa | hStl
    · have hfilter : tl.filter (fun s => s.id = S.id) = [] := by
        apply List.filter_eq_nil_iff.mpr
        intro x hx
        simp only [decide_eq_true_eq]
        intro hxa
        apply hN.1
        have hxa2 : x.id = a.id := by rw [hxa, hSa]
        exact List.mem_map.mpr ⟨x, hx, hxa2⟩
      rw [List.filter_cons_of_pos (by simp [hSa]), hfilter, hSa]
    · have ha : ¬(a.id = S.id) := by
        intro hid
        apply hN.1
        rw [hid]
        exact List.mem_map.mpr ⟨S, hStl, rfl⟩
      rw [List.filter_cons_of_neg (by simp [ha])]
      exact ih hN.2 hStl

/-! # Claim C4: topic publish membership -/

/-- C4: CONFIRMED.  For `Hub.BroadcastMessageExcept` with the sender
excluded: when the message carries a topic that is neither empty nor
the reserved "general", a registered socket receives the marshalled
message exactly when the topic is in its connection's subscription set
and it is not banned (the sender included, as the source comments);
when the topic is empty or "general", every non-banned registered
socket other than the sender receives it. -/
theorem C4_topic_publish_membership (h : Hub) (msg : Message) (senderId : String)
    (S : SocketSt) (hS : S ∈ h.sockets)
    (hN : (h.sockets.map (fun s => s.id)).Nodup) :
    (msg.topic ≠ "" → msg.topic ≠ "general" →
      (Delivery.mk S.id (.text (encodeMessage msg)) ∈ h.BroadcastMessageExcept msg (some senderId)
        ↔ (S.IsSubscribed msg.topic = true ∧ S.banned = false)))
    ∧ ((msg.topic = "" ∨ msg.topic = "general") →
      (Delivery.mk S.id (.text (encodeMessage msg)) ∈ h.BroadcastMessageExcept msg (some senderId)
        ↔ (S.banned = false ∧ S.id ≠ senderId))) := by
  unfold Hub.BroadcastMessageExcept
  constructor
  · intro ht1 ht2
    constructor
    · intro hmem
      rcases List.mem_filterMap.mp hmem with ⟨x, hx, hfx⟩
      by_cases hb : x.banned = true
      · rw [if_pos hb] at hfx
        cases hfx
      · rw [if_neg hb, if_pos ⟨ht1, ht2⟩] at hfx
        by_cases hsub : x.IsSubscribed msg.topic = true
        · rw [if_pos hsub] at hfx
          injection hfx with hfx1
          injection hfx1 with hid _
          have hxS : x = S := eq_of_mem_of_id_eq hN hx hS hid
          subst hxS
          exact ⟨hsub, by simpa using hb⟩
        · rw [if_neg hsub] at hfx
          cases hfx
    · rintro ⟨hsub, hb⟩
      apply List.mem_filterMap.mpr
      refine ⟨S, hS, ?_⟩
      rw [if_neg (by simp [hb]), if_pos ⟨ht1, ht2⟩, if_pos hsub]
  · intro ht
    constructor
    · intro hmem
      rcases List.mem_filterMap.mp hmem with ⟨x, hx, hfx⟩
      by_cases hb : x.banned = true
      · rw [if_pos hb] at hfx
        cases hfx
      · rw [if_neg hb] at hfx
        rw [if_neg (by rcases ht with ht | ht <;> simp [ht])] at hfx
        by_cases hex : some senderId = some x.id
        · rw [if_pos hex] at hfx
          cases hfx
        · rw [if_neg hex] at hfx
          injection hfx with hfx1
          injection hfx1 with hid _
          have hxS : x = S := eq_of_mem_of_id_eq hN hx hS hid
          subst hxS
          refine ⟨by simpa using hb, ?_⟩
          intro hsid
          exact hex (by rw [hsid])
    · rintro ⟨hb, hsid⟩
      apply List.mem_filterMap.mpr
      refine ⟨S, hS, ?_⟩
      rw [if_neg (by simp [hb]), if_neg (by rcases ht with ht | ht <;> simp [ht]),
        if_neg (by simpa using fun hx => hsid hx.symm)]

/-- C4 witness: in the concrete hub, subscriber "A" receives the
publish to "news" sent by "B". -/
theorem C4_topic_publish_membership_witness :
    Delivery.mk "A" (.text (encodeMessage msgC4)) ∈ hubC4.BroadcastMessageExcept msgC4 (some "B") :=
  ((C4_topic_publish_membership hubC4 msgC4 "B" sockA4
      (List.mem_cons_self _ _) (by decide)).1
    (by decide) (by decide)).mpr ⟨by decide, by decide⟩

/-! # Claim C10: user list -/

/-- C10: CONFIRMED.  `Hub.GetUserList` reports exactly the registered
sockets whose banned flag is false, each as its (id, alias) pair — a
banned socket is omitted even though it stays in the registry — and the
dispatcher answers a t=14 frame by sending exactly that list back to
the requesting socket. -/
theorem C10_user_list_exactly_non_banned (h : Hub)
    (hN : (h.sockets.map (fun s => s.id)).Nodup) :
    (∀ S ∈ h.sockets, ((S.id, S.GetAlias) ∈ h.GetUserList ↔ S.banned = false))
    ∧ (∀ p ∈ h.GetUserList, ∃ S ∈ h.sockets, S.banned = false ∧ p = (S.id, S.GetAlias))
    ∧ (∀ (st : ServerSt) (senderId : String) (sender : SocketSt) (msg : Message),
        st.hub = h → st.hub.GetSocket senderId = some sender → msg.t = MsgUserList →
        handleUnifiedMessage st senderId msg = .ok st (sender.SendMessage (userListMessage h))) := by
  refine ⟨?_, ?_, ?_⟩
  · intro S hS
    constructor
    · intro hmem
      rcases List.mem_map.mp hmem with ⟨x, hxf, hxe⟩
      have hxl := List.mem_filter.mp hxf
      have hid : x.id = S.id := by
        have := congrArg Prod.fst hxe
        simpa using this
      have hxS : x = S := eq_of_mem_of_id_eq hN hxl.1 hS hid
      subst hxS
      simpa using hxl.2
    · intro hb
      exact List.mem_map.mpr ⟨S, List.mem_filter.mpr ⟨hS, by simp [hb]⟩, rfl⟩
  · intro p hp
    rcases List.mem_map.mp hp with ⟨x, hxf, hxe⟩
    have hxl := List.mem_filter.mp hxf
    exact ⟨x, hxl.1, by simpa using hxl.2, hxe.symm⟩
  · intro st senderId sender msg hsth hfind ht
    subst hsth
    simp only [handleUnifiedMessage, hfind, ht]
    norm_num [MsgSubscribe, MsgUnsubscribe, MsgBroadcast, MsgPing, MsgFile, MsgTyping,
      MsgDirect, MsgThread, MsgUserList]

/-! # Claim C5: banned sockets -/

/-- C5 counterexample: a banned socket still ORIGINATES fan-out.  The
dispatcher's broadcast case never consults the sender's banned flag, so
banned "A"'s inbound broadcast frame is delivered to "B".  This refutes
the claim's "an inbound broadcast/typing/direct frame from it produces
no delivery to any other socket". -/
theorem C5_counterexample_banned_sender_still_fans_out :
    handleUnifiedMessage stC5 "A" { t := 1, data := .str "hi" }
      = .ok stC5 [⟨"B", .text (encodeMessage { t := 1, data := .str "hi" })⟩] := by
  rfl

/-- C5: CORRECTED.  What does hold: a banned socket is skipped as a
recipient by every fan-out path (`BroadcastMessageExcept`,
`BroadcastBinaryToAll`, `Notify`), its own outbound enqueue
(`Socket.SendMessage`) is a no-op, and its control frames (close) are
still dispatched — but a banned sender's inbound broadcast is still
fanned out to the other sockets (the dispatcher never checks the
sender's flag), contrary to the original claim. -/
theorem C5_amended_banned_socket_reception_and_control :
    (∀ (h : Hub) (msg : Message) (excludeId : Option String) (S : SocketSt),
      S ∈ h.sockets → (h.sockets.map (fun s => s.id)).Nodup → S.banned = true →
      ∀ d ∈ h.BroadcastMessageExcept msg excludeId, d.target ≠ S.id)
    ∧ (∀ (h : Hub) (payload : List Nat) (S : SocketSt),
      S ∈ h.sockets → (h.sockets.map (fun s => s.id)).Nodup → S.banned = true →
      ∀ d ∈ h.BroadcastBinaryToAll payload, d.target ≠ S.id)
    ∧ (∀ (h : Hub) (socketIDs : List String) (event : String) (data : Json) (S : SocketSt),
      S ∈ h.sockets → (h.sockets.map (fun s => s.id)).Nodup → S.banned = true →
      ∀ d ∈ h.Notify socketIDs event data, d.target ≠ S.id)
    ∧ (∀ (S : SocketSt) (msg : Message), S.banned = true → S.SendMessage msg = [])
    ∧ (∀ (st : ServerSt) (senderId : String), handleFrame st senderId .close = .closed st)
    ∧ (∀ (st : ServerSt) (senderId : String) (sender : SocketSt) (msg : Message),
      st.hub.GetSocket senderId = some sender → msg.t = MsgBroadcast →
      handleUnifiedMessage st senderId msg
        = .ok st (st.hub.BroadcastMessageExcept
            { t := MsgBroadcast, topic := msg.topic, data := msg.data } (some senderId))) := by
  refine ⟨?_, ?_, ?_, ?_, ?_, ?_⟩
  · intro h msg excludeId S hS hN hSb d hd
    rcases List.mem_filterMap.mp hd with ⟨x, hx, hfx⟩
    by_cases hb : x.banned = true
    · rw [if_pos hb] at hfx
      cases hfx
    · intro htar
      have hxid : d.target = x.id := by
        rw [if_neg hb] at hfx
        split_ifs at hfx <;>
          exact (congrArg Delivery.target (Option.some.inj hfx)).symm
      have hxS : x = S := eq_of_mem_of_id_eq hN hx hS (by rw [← hxid, htar])
      rw [hxS] at hb
      exact hb hSb
  · intro h payload S hS hN hSb d hd
    rcases List.mem_filterMap.mp hd with ⟨x, hx, hfx⟩
    by_cases hb : x.banned = true
    · rw [if_pos hb] at hfx
      cases hfx
    · intro htar
      have hxid : d.target = x.id := by
        rw [if_neg hb] at hfx
        exact (congrArg Delivery.target (Option.some.inj hfx)).symm
      have hxS : x = S := eq_of_mem_of_id_eq hN hx hS (by rw [← hxid, htar])
      rw [hxS] at hb
      exact hb hSb
  · intro h socketIDs event data S hS hN hSb d hd
    rcases List.mem_filterMap.mp hd with ⟨sid, _, hfx⟩
    intro htar
    cases hfind : h.GetSocket sid with
    | none =>
      simp only [hfind] at hfx
      cases hfx
    | some x =>
      simp only [hfind] at hfx
      by_cases hb : x.banned = true
      · rw [if_pos hb] at hfx
        cases hfx
      · rw [if_neg hb] at hfx
        have hxid : d.target = x.id := (congrArg Delivery.target (Option.some.inj hfx)).symm
        have hxmem : x ∈ h.sockets := List.mem_of_find?_eq_some hfind
        have hxS : x = S := eq_of_mem_of_id_eq hN hxmem hS (by rw [← hxid, htar])
        rw [hxS] at hb
        exact hb hSb
  · intro S msg hSb
    unfold SocketSt.SendMessage
    rw [if_pos hSb]
  · intro st senderId
    rfl
  · intro st senderId sender msg hfind ht
    simp only [handleUnifiedMessage, hfind, ht]
    norm_num [MsgSubscribe, MsgUnsubscribe, MsgBroadcast]

/-- C5 witness: applying the amended theorem in the concrete two-socket
hub: the one delivery the broadcast produces does not target the banned
socket "A". -/
theorem C5_amended_banned_socket_reception_and_control_witness :
    (Delivery.mk "B" (.text (encodeMessage { t := 1, data := .str "hi" }))).target
      ≠ (SocketSt.id { id := "A", banned := true }) :=
  C5_amended_banned_socket_reception_and_control.1 stC5.hub
    { t := 1, data := .str "hi" } none { id := "A", banned := true }
    (List.mem_cons_self _ _) (by decide) rfl
    (Delivery.mk "B" (.text (encodeMessage { t := 1, data := .str "hi" })))
    (List.Mem.head _)

/-! # Claim C6: untargeted file transfer -/

/-- C6 counterexample: the binary payload goes out through
`Hub.BroadcastBinaryToAll`, which includes the sender — so "A" receives
its own 5-byte payload back, refuting "the sender receives neither the
announcement nor the binary". -/
theorem C6_counterexample_sender_receives_binary :
    ∃ (st' : ServerSt) (d1 d3 : Delivery),
      handleBinaryMessage stC6 "A" [1, 2, 3, 4, 5]
        = .ok st' [d1, ⟨"A", .binary [1, 2, 3, 4, 5]⟩, d3] := by
  exact ⟨_, _, _, rfl⟩

/-- Commute a target filter past the per-socket fan-out `filterMap`,
for fan-out functions that address each delivery to the socket that
produced it. -/
theorem filter_target_filterMap (l : List SocketSt) (f : SocketSt → Option Delivery)
    (hf : ∀ x d, f x = some d → d.target = x.id) (sid : String) :
    (l.filterMap f).filter (fun d => d.target = sid)
      = (l.filter (fun s => s.id = sid)).filterMap f := by
  induction l with
  | nil => rfl
  | cons a tl ih =>
    cases hfa : f a with
    | none =>
      rw [List.filterMap_cons_none hfa]
      by_cases hid : a.id = sid
      · rw [List.filter_cons_of_pos (by simp [hid]), List.filterMap_cons_none hfa, ih]
      · rw [List.filter_cons_of_neg (by simp [hid]), ih]
    | some d =>
      rw [List.filterMap_cons_some hfa]
      have hd := hf a d hfa
      by_cases hid : a.id = sid
      · rw [List.filter_cons_of_pos (by simp [hd, hid]),
          List.filter_cons_of_pos (by simp [hid]),
          List.filterMap_cons_some hfa, ih]
      · rw [List.filter_cons_of_neg (by simp [hd, hid]),
          List.filter_cons_of_neg (by simp [hid]), ih]

/-- C6: CORRECTED.  For an untargeted transfer (pending metadata with
neither `to` nor `topic`): after pairing with the binary frame, every
non-banned socket other than the sender receives exactly the
announcement followed by the binary payload — but the sender, while
getting no announcement, DOES receive the binary, because the source
routes the bytes through `BroadcastBinaryToAll` (sender included)
rather than all-except-sender. -/
theorem C6_amended_file_broadcast (h : Hub) (A : SocketSt) (meta : Message)
    (payload : List Nat) (hA : A ∈ h.sockets)
    (hN : (h.sockets.map (fun s => s.id)).Nodup)
    (hpend : A.pendingFile = some meta) (hto : meta.toId = "") (htopic : meta.topic = "") :
    handleBinaryMessage { hub := h } A.id payload
      = .ok { hub := h.updateSocket A.id (fun s => { s with pendingFile := none }) }
          (h.BroadcastMessageExcept (fileAnnouncement A meta) (some A.id)
            ++ h.BroadcastBinaryToAll payload)
    ∧ (∀ S ∈ h.sockets, S.banned = false → S.id ≠ A.id →
        (h.BroadcastMessageExcept (fileAnnouncement A meta) (some A.id)
            ++ h.BroadcastBinaryToAll payload).filter (fun d => d.target = S.id)
          = [⟨S.id, .text (encodeMessage (fileAnnouncement A meta))⟩, ⟨S.id, .binary payload⟩])
    ∧ (A.banned = false →
        (h.BroadcastMessageExcept (fileAnnouncement A meta) (some A.id)
            ++ h.BroadcastBinaryToAll payload).filter (fun d => d.target = A.id)
          = [⟨A.id, .binary payload⟩]) := by
  have hfindA : Hub.GetSocket h A.id = some A := find_id_of_nodup hN hA
  have hbx : ∀ (S : SocketSt), S.banned = false →
      (h.BroadcastMessageExcept (fileAnnouncement A meta) (some A.id)).filter
        (fun d => d.target = S.id)
      = (h.sockets.filter (fun s => s.id = S.id)).filterMap (fun socket =>
          if socket.banned = true then none
          else if (fileAnnouncement A meta).topic ≠ "" ∧ (fileAnnouncement A meta).topic ≠ "general" then
            (if socket.IsSubscribed (fileAnnouncement A meta).topic = true then
              some ⟨socket.id, .text (encodeMessage (fileAnnouncement A meta))⟩ else none)
          else if some A.id = some socket.id then none
          else some ⟨socket.id, .text (encodeMessage (fileAnnouncement A meta))⟩) := by
    intro S _
    unfold Hub.BroadcastMessageExcept
    exact filter_target_filterMap _ _ (by
      intro x d hfx
      by_cases hb : x.banned = true
      · rw [if_pos hb] at hfx; cases hfx
      · rw [if_neg hb] at hfx
        split_ifs at hfx <;>
          exact (congrArg Delivery.target (Option.some.inj hfx)).symm) S.id
  have hbb : ∀ (sid : String),
      (h.BroadcastBinaryToAll payload).filter (fun d => d.target = sid)
      = (h.sockets.filter (fun s => s.id = sid)).filterMap (fun socket =>
          if socket.banned = true then none else some ⟨socket.id, .binary payload⟩) := by
    intro sid
    unfold Hub.BroadcastBinaryToAll
    exact filter_target_filterMap _ _ (by
      intro x d hfx
      by_cases hb : x.banned = true
      · rw [if_pos hb] at hfx; cases hfx
      · rw [if_neg hb] at hfx
        exact (congrArg Delivery.target (Option.some.inj hfx)).symm) sid
  refine ⟨?_, ?_, ?_⟩
  · unfold handleBinaryMessage
    simp only [hfindA, hpend]
    rw [if_neg (by simp [hto]), if_neg (by simp [htopic])]
  · intro S hS hSb hSA
    rw [List.filter_append, hbx S hSb, hbb S.id, filter_id_of_nodup hN hS]
    have h1 : (fileAnnouncement A meta).topic = "" := rfl
    rw [List.filterMap_cons, List.filterMap_cons]
    rw [if_neg (by simp [hSb]), if_neg (by simp [h1]),
      if_neg (by simpa using fun e => hSA e.symm)]
    simp [hSb]
  · intro hAb
    rw [List.filter_append, hbx A hAb, hbb A.id, filter_id_of_nodup hN hA]
    have h1 : (fileAnnouncement A meta).topic = "" := rfl
    rw [List.filterMap_cons, List.filterMap_cons]
    rw [if_neg (by simp [hAb]), if_neg (by simp [h1]), if_pos rfl]
    simp [hAb]

/-- C6 witness: the amended theorem applied in the concrete two-socket
state — "B" gets announcement then binary, "A" gets only the binary. -/
theorem C6_amended_file_broadcast_witness :
    (stC6.hub.BroadcastMessageExcept
        (fileAnnouncement
          { id := "A",
            pendingFile := some { t := 10, data := .obj [("filename", .str "x.bin"), ("size", .num 5)] } }
          { t := 10, data := .obj [("filename", .str "x.bin"), ("size", .num 5)] })
        (some "A")
      ++ stC6.hub.BroadcastBinaryToAll [1, 2, 3, 4, 5]).filter (fun d => d.target = "A")
      = [⟨"A", .binary [1, 2, 3, 4, 5]⟩] :=
  (C6_amended_file_broadcast stC6.hub
      { id := "A",
        pendingFile := some { t := 10, data := .obj [("filename", .str "x.bin"), ("size", .num 5)] } }
      { t := 10, data := .obj [("filename", .str "x.bin"), ("size", .num 5)] }
      [1, 2, 3, 4, 5] (List.mem_cons_self _ _) (by decide) rfl rfl rfl).2.2 rfl

/-! # Claim C9: admission/removal invariant -/

/-- ASCII digit characters decode back to their digit. -/
theorem char48_toNat : ∀ d, d < 10 → (Char.ofNat (48 + d)).toNat = 48 + d := by
  decide

/-- Mapping digit→char→digit is the identity on digit lists. -/
theorem map_digit_char_inv (L : List Nat) (hL : ∀ d ∈ L, d < 10) :
    L.map (fun d => (Char.ofNat (48 + d)).toNat - 48) = L := by
  induction L with
  | nil => rfl
  | cons a tl ih =>
    rw [List.map_cons, char48_toNat a (hL a (List.mem_cons_self a tl)),
      Nat.add_sub_cancel_left, ih (fun d hd => hL d (List.mem_cons_of_mem a hd))]

/-- Reading back the decimal rendering recovers the number. -/
theorem decodeDecimal_natDecimal : ∀ n, decodeDecimal (natDecimal n) = n := by
  intro n
  unfold natDecimal decodeDecimal
  by_cases h : n = 0
  · subst h
    simp [Nat.ofDigits]
  · rw [if_neg h]
    have hdata : ((String.mk ((Nat.digits 10 n).reverse.map (fun d => Char.ofNat (48 + d)))).data.map
        (fun c => c.toNat - 48)) = (Nat.digits 10 n).reverse := by
      show (((Nat.digits 10 n).reverse.map (fun d => Char.ofNat (48 + d))).map
        (fun c => c.toNat - 48)) = (Nat.digits 10 n).reverse
      rw [List.map_map]
      exact map_digit_char_inv _
        (fun d hd => Nat.digits_lt_base (by norm_num) (List.mem_reverse.mp hd))
    rw [hdata, List.reverse_reverse, Nat.ofDigits_digits]

/-- The decimal socket-ID rendering is injective: distinct clock
readings yield distinct socket IDs. -/
theorem natDecimal_injective : Function.Injective natDecimal :=
  Function.LeftInverse.injective decodeDecimal_natDecimal

/-- Removing the unique socket with a found ID shrinks the registry by
exactly one. -/
theorem filter_ne_length_of_find {l : List SocketSt} {i : String} {x : SocketSt}
    (hN : (l.map (fun s => s.id)).Nodup)
    (hfind : l.find? (fun s => s.id = i) = some x) :
    (l.filter (fun s => s.id ≠ i)).length + 1 = l.length := by
  induction l with
  | nil => cases hfind
  | cons a tl ih =>
    rw [List.map_cons, List.nodup_cons] at hN
    by_cases hai : a.id = i
    · rw [List.filter_cons_of_neg (by simp [hai])]
      have htl : tl.filter (fun s => s.id ≠ i) = tl := by
        apply List.filter_eq_self.mpr
        intro s hs
        simp only [decide_eq_true_eq, ne_eq]
        intro heq
        apply hN.1
        rw [hai, ← heq]
        exact List.mem_map.mpr ⟨s, hs, rfl⟩
      rw [htl, List.length_cons]
    · rw [List.find?_cons_of_neg _ (by simp [hai])] at hfind
      rw [List.filter_cons_of_pos (by simp [hai])]
      rw [List.length_cons, List.length_cons, ← ih hN.2 hfind]

/-- Each registry operation preserves the well-formedness invariant. -/
theorem applyOp_wf (st : Hub × Gen) (op : HubOp) (hst : HubWF st) : HubWF (applyOp st op) := by
  obtain ⟨h, g⟩ := st
  obtain ⟨hcount, hids, hnodup⟩ := hst
  cases op with
  | admitConn =>
    show HubWF (match h.NewSocket g with | (_, h2, g2, _) => (h2, g2))
    unfold Hub.NewSocket
    by_cases hcap : h.connCount ≥ h.maxConns
    · rw [if_pos hcap]
      exact ⟨hcount, hids, hnodup⟩
    · rw [if_neg hcap]
      simp only [generateSocketID]
      refine ⟨?_, ?_, ?_⟩
      · show h.connCount + 1 = (((h.sockets ++ [({ id := natDecimal g.counter } : SocketSt)]).length : Nat) : Int)
        rw [List.length_append, List.length_cons, List.length_nil, hcount]
        push_cast
        ring
      · intro s hs
        rcases List.mem_append.mp hs with hs | hs
        · rcases hids s hs with ⟨k, hk, hkid⟩
          exact ⟨k, Nat.lt_succ_of_lt hk, hkid⟩
        · rw [List.mem_singleton] at hs
          exact ⟨g.counter, Nat.lt_succ_self _, by rw [hs]⟩
      · rw [List.map_append, List.nodup_append]
        refine ⟨hnodup, List.nodup_singleton _, ?_⟩
        intro a ha hb
        rw [List.map_singleton, List.mem_singleton] at hb
        rcases List.mem_map.mp ha with ⟨s, hsmem, hsid⟩
        rcases hids s hsmem with ⟨k, hk, hkid⟩
        have : natDecimal k = natDecimal g.counter := by
          rw [← hkid, hsid, hb]
        exact absurd (natDecimal_injective this) (Nat.ne_of_lt hk)
  | remove i =>
    show HubWF (h.RemoveSocket i, g)
    unfold Hub.RemoveSocket
    cases hfind : h.GetSocket i with
    | none =>
      simp only [hfind]
      exact ⟨hcount, hids, hnodup⟩
    | some x =>
      simp only [hfind]
      have hlen := filter_ne_length_of_find hnodup hfind
      refine ⟨?_, ?_, ?_⟩
      · show h.connCount - 1 = (((h.sockets.filter (fun s => s.id ≠ i)).length : Nat) : Int)
        rw [hcount, ← hlen]
        push_cast
        ring
      · intro s hs
        exact hids s (List.mem_of_mem_filter hs)
      · have hsub : (h.sockets.filter (fun s => s.id ≠ i)).Sublist h.sockets :=
          List.filter_sublist h.sockets
        exact List.Nodup.sublist (List.Sublist.map (fun s => s.id) hsub) hnodup

/-- C9: CONFIRMED.  Over every sequence of admissions and removals
starting from a fresh hub, the connection count equals the number of
registry entries (and the registry IDs stay pairwise distinct, so the
list faithfully stands for the Go map); moreover once the count has
reached the cap, the next admission closes the transport and registers
no socket, and the cap defaults to 100000. -/
theorem C9_connection_count_invariant :
    (∀ ops : List HubOp,
      (runOps ops).1.connCount = (((runOps ops).1.sockets.length : Nat) : Int)
      ∧ ((runOps ops).1.sockets.map (fun s => s.id)).Nodup)
    ∧ (∀ (h : Hub) (g : Gen), h.connCount ≥ h.maxConns → h.NewSocket g = (none, h, g, true))
    ∧ NewHub.maxConns = 100000 := by
  refine ⟨?_, ?_, rfl⟩
  · intro ops
    have hwf : HubWF (runOps ops) := by
      unfold runOps
      have hfold : ∀ (l : List HubOp) (st : Hub × Gen), HubWF st → HubWF (l.foldl applyOp st) := by
        intro l
        induction l with
        | nil => intro st hst; exact hst
        | cons op tl ih =>
          intro st hst
          exact ih _ (applyOp_wf _ _ hst)
      exact hfold ops (NewHub, {}) ⟨rfl, (by intro s hs; cases hs), List.nodup_nil⟩
    exact ⟨hwf.1, hwf.2.2⟩
  · intro h g hcap
    unfold Hub.NewSocket
    rw [if_pos hcap]

/-- C9 witness: a hub at the default cap rejects the next admission,
closing the transport and leaving the hub unchanged. -/
theorem C9_connection_count_invariant_witness :
    (({ connCount := 100000 } : Hub).connCount ≥ ({ connCount := 100000 } : Hub).maxConns)
    ∧ ({ connCount := 100000 } : Hub).NewSocket {} = (none, { connCount := 100000 }, {}, true) :=
  ⟨by decide, C9_connection_count_invariant.2.1 { connCount := 100000 } {} (by decide)⟩


/-- C10 witness: in the concrete hub, non-banned "A" appears in the
user list and banned "B" does not (instantiating both directions). -/
theorem C10_user_list_exactly_non_banned_witness :
    (((("A" : String), (SocketSt.GetAlias { id := "A" })) ∈ hubC10.GetUserList) ↔
      (({ id := "A" } : SocketSt).banned = false))
    ∧ handleUnifiedMessage { hub := hubC10 } "A" { t := 14 }
      = .ok { hub := hubC10 }
          (SocketSt.SendMessage { id := "A" } (userListMessage hubC10)) :=
  ⟨(C10_user_list_exactly_non_banned hubC10 (by decide)).1 _ (List.mem_cons_self _ _),
   (C10_user_list_exactly_non_banned hubC10 (by decide)).2.2
     { hub := hubC10 } "A" { id := "A" } { t := 14 } rfl (by rfl) rfl⟩

end Ws
